import Mathlib

/-!
Verification of the AVM2 object model core (property dispatch protocol,
trait installation, enumeration, and the vector specialization) against
its natural-language specification.

The definitions below are a shallow embedding of `core/src/avm2/object.rs`
(the `TObject` capability interface with its default algorithms) and
`core/src/avm2/object/vector_object.rs` (the `VectorObject` overrides).
Collaborator code that the repository uses but that is not part of the
examined corpus (the `ScriptObjectData` storage base, `ClassObject`,
`VectorStorage`, the name types, and value coercion) is modelled from the
specification; every such definition carries a doc comment saying so.

Machine-level details that the claims do not depend on (garbage-collector
mutation contexts, activation records, receiver threading into bound
callables) are dropped: every operation takes the object as an explicit
argument and returns the possibly-updated object, so that "storage is
unchanged by a failed operation" is directly statable.
-/

namespace Avm2

/-- Modelled from the spec: a namespace identifies a visibility scope —
public (`Package ""`), a named package, a private scope, or the wildcard
`Any` used only inside multinames (names.rs is not part of the corpus). -/
inductive Namespace where
  | Any : Namespace
  | Package : String → Namespace
  | PrivateNs : String → Namespace
deriving DecidableEq, Repr

/-- Modelled from the spec: the public namespace is the package namespace
with the empty name, matching `Namespace::public()` and `is_package("")`. -/
def Namespace.publicNs : Namespace := .Package ""

/-- Modelled from the spec: `Namespace::is_package(name)` — true exactly for
a package namespace carrying that name. -/
def Namespace.is_package (ns : Namespace) (s : String) : Bool :=
  match ns with
  | .Package n => n == s
  | _ => false

/-- Modelled from the spec: a qualified name pairs one namespace with a
local name and is the unique key into an object's own storage. -/
structure QName where
  ns : Namespace
  local_name : String
deriving DecidableEq, Repr

/-- Modelled from the spec: `QName::dynamic_name(local)` builds a qualified
name in the public namespace. -/
def QName.dynamic_name (s : String) : QName := ⟨Namespace.publicNs, s⟩

/-- Modelled from the spec: a multiname is an unresolved reference carrying
an optional local name and a set of candidate namespaces. -/
structure Multiname where
  localName : Option String
  nsSet : List Namespace
deriving DecidableEq, Repr

/-- Modelled from the spec: the tagged union of runtime values. The
`Number` payload is kept abstract as an integer, since no claim examined
here depends on floating-point arithmetic; object references are arena
identifiers. -/
inductive Value where
  | undefinedV : Value
  | nullV : Value
  | boolV : Bool → Value
  | numberV : Int → Value
  | strV : String → Value
  | objV : Nat → Value
deriving DecidableEq, Repr

/-- Modelled from the spec: a bound getter is a callable closed over its
receiver; its invocation is abstracted as the deterministic value it
yields, alongside the identifier of the bound function object. -/
structure Getter where
  fnId : Nat
  result : Value
deriving DecidableEq, Repr

/-- Modelled from the spec: one own-storage binding — slot, const,
method (dispatch id plus bound function object), a getter/setter pair, or
a plain dynamic value property. -/
inductive Property where
  | slotP : Nat → Value → Property
  | constP : Nat → Value → Property
  | methodP : Nat → Nat → Property
  | virtualP : Option Getter → Option Nat → Property
  | dynamicP : Value → Property
deriving DecidableEq, Repr

/-- Modelled from the spec: the kind of a static trait declaration.
Method, getter and setter traits carry a dispatch id and the identifier of
the method they will bind. -/
inductive TraitKind where
  | slotK : Nat → Value → TraitKind
  | methodK : Nat → Nat → TraitKind
  | getterK : Nat → Nat → TraitKind
  | setterK : Nat → Nat → TraitKind
  | classTraitK : Nat → TraitKind
  | functionK : Nat → TraitKind
  | constK : Nat → Value → TraitKind
deriving DecidableEq, Repr

/-- Modelled from the spec: a static trait declaration attached to a
class: a qualified name plus a kind. -/
structure Trait where
  name : QName
  kind : TraitKind
deriving DecidableEq, Repr

/-- Modelled from the spec: a class object exposes its superclass chain, a
sealed/dynamic flag, its declared instance traits, and its declared class
(static) traits. -/
inductive ClassObject where
  | mk : Option ClassObject → Bool → List Trait → List Trait → ClassObject
deriving Repr

def ClassObject.superclass_object : ClassObject → Option ClassObject
  | .mk sup _ _ _ => sup

def ClassObject.is_sealed : ClassObject → Bool
  | .mk _ s _ _ => s

def ClassObject.instance_traits : ClassObject → List Trait
  | .mk _ _ it _ => it

def ClassObject.class_traits : ClassObject → List Trait
  | .mk _ _ _ ct => ct

def TraitKind.isMethodKind : TraitKind → Bool
  | .methodK _ _ => true
  | _ => false

/-- Modelled from the spec: `ClassObject::instance_method(name)` resolves
a method trait with the given qualified name against the class's method
table, searching the superclass chain so inherited methods are found. -/
def ClassObject.instance_method : ClassObject → QName → Option Trait
  | .mk sup _ it _, n =>
    match it.find? (fun t => t.name == n && t.kind.isMethodKind) with
    | some t => some t
    | none =>
      match sup with
      | some s => s.instance_method n
      | none => none

/-- Modelled from the spec: `ClassObject::class_method(name)` resolves a
method trait against the class's own static method table. -/
def ClassObject.class_method : ClassObject → QName → Option Trait
  | .mk _ _ _ ct, n => ct.find? (fun t => t.name == n && t.kind.isMethodKind)

/-- Modelled from the spec: `ClassObject::bound_instance_method` yields the
bound callable (identified by its function id) and the dispatch id for a
declared instance method, if any. -/
def ClassObject.bound_instance_method (c : ClassObject) (n : QName) :
    Option (Nat × Nat) :=
  match c.instance_method n with
  | some t =>
    match t.kind with
    | .methodK dispId fnId => some (fnId, dispId)
    | _ => none
  | none => none

/-- Modelled from the spec: `ClassObject::bound_class_method`, the static
counterpart of `bound_instance_method`. -/
def ClassObject.bound_class_method (c : ClassObject) (n : QName) :
    Option (Nat × Nat) :=
  match c.class_method n with
  | some t =>
    match t.kind with
    | .methodK dispId fnId => some (fnId, dispId)
    | _ => none
  | none => none

/-- Modelled from the spec: the namespaces under which a class's instance
traits (searching the superclass chain) declare the given local name. -/
def ClassObject.instance_trait_ns : ClassObject → String → List Namespace
  | .mk sup _ it _, l =>
    (it.filter (fun t => t.name.local_name == l)).map (fun t => t.name.ns) ++
      (match sup with
       | some s => s.instance_trait_ns l
       | none => [])

/-- Modelled from the spec: the namespaces under which a class's own class
traits declare the given local name. -/
def ClassObject.class_trait_ns (c : ClassObject) (l : String) : List Namespace :=
  (c.class_traits.filter (fun t => t.name.local_name == l)).map (fun t => t.name.ns)

/-- Modelled from the spec: a vector's declared element type, given by its
coercion function (`coerce_to_type` from value.rs, not part of the corpus)
and its zero/default value. -/
structure ElemType where
  coerce : Value → Value
  default : Value

/-- Modelled from the spec: vector storage holds the elements, a fixed
flag, and the declared element type. -/
structure VectorStorage where
  storage : List Value
  fixed : Bool
  valueType : ElemType

def VectorStorage.length (s : VectorStorage) : Nat := s.storage.length

/-- Modelled from the spec: `VectorStorage::get(pos)` yields the element
at `pos` when it is in range. -/
def VectorStorage.get (s : VectorStorage) (pos : Nat) : Option Value :=
  s.storage.get? pos

/-- Modelled from the spec: `VectorStorage::is_in_range(pos)`. -/
def VectorStorage.is_in_range (s : VectorStorage) (pos : Nat) : Bool :=
  pos < s.storage.length

/-- Modelled from the spec: the element type's zero/default value used when
a write collapses `Undefined`/`Null`. -/
def VectorStorage.defaultValue (s : VectorStorage) : Value := s.valueType.default

/-- Error taxonomy of the specification; every failure carries the local
name it concerns where the source's message does. -/
inductive Err where
  | UndefinedPropertyRead : Option String → Err
  | UndefinedPropertyWrite : Option String → Err
  | ReadOnlyOverwrite : String → Err
  | RangeErr : Err
deriving DecidableEq, Repr

/-- Modelled from the spec: `VectorStorage::set(pos, value)` stores in
range, appends at the end of a non-fixed vector, and otherwise fails with
a range error. -/
def VectorStorage.set (s : VectorStorage) (pos : Nat) (v : Value) :
    Except Err VectorStorage :=
  if !s.fixed && pos == s.storage.length then
    .ok { s with storage := s.storage ++ [v] }
  else if pos < s.storage.length then
    .ok { s with storage := s.storage.set pos v }
  else
    .error .RangeErr

/-- The discriminant of the closed object variant set that the claims
exercise: the generic script object, the vector specialization, and class
objects (which answer `as_class_object`). -/
inductive ObjKind where
  | script : ObjKind
  | vectorK : VectorStorage → ObjKind
  | classK : ClassObject → ObjKind

/-- An object: the shared storage base (ordered own bindings, prototype
reference, class reference — modelled from the spec, script_object.rs not
being part of the corpus) together with its variant-specific data. The
prototype is a sub-term, so prototype chains are finite by construction
(the spec records unguarded cyclic chains as an open risk, out of scope
here). -/
inductive Obj where
  | mk : List (QName × Property) → Option Obj → Option ClassObject → ObjKind → Obj

def Obj.values : Obj → List (QName × Property)
  | .mk vals _ _ _ => vals

def Obj.proto : Obj → Option Obj
  | .mk _ p _ _ => p

def Obj.instance_of : Obj → Option ClassObject
  | .mk _ _ io _ => io

def Obj.kind : Obj → ObjKind
  | .mk _ _ _ k => k

def Obj.as_class_object (o : Obj) : Option ClassObject :=
  match o.kind with
  | .classK c => some c
  | _ => none

def Obj.as_vector_storage (o : Obj) : Option VectorStorage :=
  match o.kind with
  | .vectorK s => some s
  | _ => none

def Obj.withValues : Obj → List (QName × Property) → Obj
  | .mk _ p io k, vals => .mk vals p io k

/-- Rust's `str::parse::<usize>`: an optional leading plus sign followed by
at least one ASCII digit, rejecting values that overflow a 64-bit usize. -/
def parseUsize (s : String) : Option Nat :=
  let cs :=
    match s.data with
    | '+' :: rest => rest
    | l => l
  if cs.length > 0 && cs.all Char.isDigit then
    let n := cs.foldl (fun acc c => acc * 10 + (c.toNat - 48)) 0
    if n < 2 ^ 64 then some n else none
  else none

/-- Look up the own binding stored under a qualified name. -/
def lookupProp (vals : List (QName × Property)) (n : QName) : Option Property :=
  (vals.find? (fun kv => kv.1 == n)).map (fun kv => kv.2)

/-- Replace the binding under `n` in place if present, else append it —
modelled from the spec's ordered own-storage mapping, where insertion
order drives enumeration. -/
def storeProp (vals : List (QName × Property)) (n : QName) (p : Property) :
    List (QName × Property) :=
  match vals with
  | [] => [(n, p)]
  | (k, q) :: rest =>
    if k == n then (k, p) :: rest else (k, q) :: storeProp rest n p

/-- Remove the own binding under `n`. -/
def removeProp (vals : List (QName × Property)) (n : QName) :
    List (QName × Property) :=
  vals.filter (fun kv => !(kv.1 == n))

/-- Sealedness test used by every default undefined-name hook:
`instance_of_class_definition().map(|c| c.read().is_sealed()).unwrap_or(false)`. -/
def Obj.instance_sealed (o : Obj) : Bool :=
  (o.instance_of.map ClassObject.is_sealed).getD false

/-- Base `has_own_instantiated_property`: the name is already present in
own storage (still from object.rs, which delegates to the base's map). -/
def Obj.has_own_instantiated_property (o : Obj) (n : QName) : Bool :=
  (lookupProp o.values n).isSome

/-- Modelled from the spec: a class declares a trait under this exact
qualified name somewhere in its superclass chain. -/
def ClassObject.has_instance_trait : ClassObject → QName → Bool
  | .mk sup _ it _, n =>
    it.any (fun t => t.name == n) ||
      (match sup with
       | some s => s.has_instance_trait n
       | none => false)

/-- Modelled from the spec: `has_trait` asks the object's class (and, for
a class object, its own static traits) whether the name is declared. -/
def Obj.has_trait (o : Obj) (n : QName) : Bool :=
  (match o.instance_of with
   | some c => c.has_instance_trait n
   | none => false) ||
  (match o.kind with
   | .classK c => c.class_traits.any (fun t => t.name == n)
   | _ => false)

/-- Modelled from the spec: base `resolve_ns` — every namespace that has
some own-or-trait binding under the local name: own bindings first (in
storage order), then class-declared trait names. -/
def Obj.base_resolve_ns (o : Obj) (l : String) : List Namespace :=
  (o.values.filter (fun kv => kv.1.local_name == l)).map (fun kv => kv.1.ns) ++
  (match o.instance_of with
   | some c => c.instance_trait_ns l
   | none => []) ++
  (match o.kind with
   | .classK c => c.class_trait_ns l
   | _ => [])

/-- Dispatching `resolve_ns`: the `VectorObject` override additionally
reports the public namespace whenever the local name parses as an in-range
index (vector_object.rs). -/
def Obj.resolve_ns (o : Obj) (l : String) : List Namespace :=
  match o.kind with
  | .vectorK s =>
    let ns_set := o.base_resolve_ns l
    if !ns_set.contains Namespace.publicNs then
      match parseUsize l with
      | some idx =>
        if s.is_in_range idx then ns_set ++ [Namespace.publicNs] else ns_set
      | none => ns_set
    else ns_set
  | _ => o.base_resolve_ns l

/-- The for loop of `resolve_multiname` (object.rs): the first candidate
namespace of the matching set that lies in the multiname's namespace set,
paired with the local name; the matching set is empty when the multiname
has no local name. -/
def Obj.resolve_multiname_hit (o : Obj) (m : Multiname) : Option QName :=
  match m.localName with
  | some nm =>
    ((o.resolve_ns nm).find? (fun ns => m.nsSet.contains ns)).map
      (fun ns => ⟨ns, nm⟩)
  | none => none

/-- The wildcard branch of `resolve_multiname` (object.rs): the first
candidate of the matching set, paired with the local name; `None` when the
matching set is empty (for a multiname without local name the matching set
is empty, so the source's `unwrap` of the local name is never reached). -/
def Obj.resolve_multiname_any (o : Obj) (m : Multiname) : Option QName :=
  match m.localName with
  | some nm => (o.resolve_ns nm).head?.map (fun ns => ⟨ns, nm⟩)
  | none => none

/-- Default `resolve_multiname` (object.rs): try the first own-or-trait
candidate namespace lying in the multiname's set; else, if the set holds
the wildcard `Any`, yield the first candidate (without consulting the
prototype); else recurse into the prototype. -/
def Obj.resolve_multiname : Obj → Multiname → Option QName
  | .mk vals proto io k, m =>
    let o := Obj.mk vals proto io k
    match o.resolve_multiname_hit m with
    | some qn => some qn
    | none =>
      if m.nsSet.contains Namespace.Any then o.resolve_multiname_any m
      else
        match proto with
        | some p => p.resolve_multiname m
        | none => none

/-- Modelled from the spec: base `has_own_property` — the name is either
instantiated in own storage or declared as a trait. -/
def Obj.base_has_own_property (o : Obj) (n : QName) : Bool :=
  o.has_own_instantiated_property n || o.has_trait n

/-- Dispatching `has_own_property`: the `VectorObject` override answers
range membership for public index names (vector_object.rs). -/
def Obj.has_own_property (o : Obj) (n : QName) : Bool :=
  match o.kind with
  | .vectorK s =>
    if n.ns.is_package "" then
      match parseUsize n.local_name with
      | some idx => s.is_in_range idx
      | none => o.base_has_own_property n
    else o.base_has_own_property n
  | _ => o.base_has_own_property n

/-- Default `has_property` (object.rs): own check, else exactly one own
check on the immediate prototype. -/
def Obj.has_property (o : Obj) (n : QName) : Bool :=
  if o.has_own_property n then true
  else
    match o.proto with
    | some p => p.has_own_property n
    | none => false

/-- Modelled from the spec: base `has_own_virtual_set_only_property` — the
own binding is a setter with no getter. -/
def Obj.has_own_virtual_set_only_property (o : Obj) (n : QName) : Bool :=
  match lookupProp o.values n with
  | some (.virtualP none (some _)) => true
  | _ => false

/-- Modelled from the spec: base `get_property_local` — slots, consts and
dynamic bindings yield their stored value, methods their bound function
object, getters their (abstracted) computed result, and anything else
`Undefined`. -/
def Obj.base_get_property_local (o : Obj) (n : QName) : Except Err Value :=
  match lookupProp o.values n with
  | some (.slotP _ v) => .ok v
  | some (.constP _ v) => .ok v
  | some (.dynamicP v) => .ok v
  | some (.methodP _ fnId) => .ok (.objV fnId)
  | some (.virtualP (some g) _) => .ok g.result
  | some (.virtualP none _) => .ok .undefinedV
  | none => .ok .undefinedV

/-- Dispatching `get_property_local`: the `VectorObject` override returns
the element for public index names, `Undefined` when out of range, never
erring (vector_object.rs). -/
def Obj.get_property_local (o : Obj) (n : QName) : Except Err Value :=
  match o.kind with
  | .vectorK s =>
    if n.ns.is_package "" then
      match parseUsize n.local_name with
      | some idx => .ok ((s.get idx).getD .undefinedV)
      | none => o.base_get_property_local n
    else o.base_get_property_local n
  | _ => o.base_get_property_local n

/-- Modelled from the spec: base `set_property_local` — overwrite a slot,
const (write-protected only by convention, per the spec) or dynamic
binding, re-invoke a setter (whose effect lies outside own storage),
reject methods and getter-only virtuals as read-only, and create a fresh
dynamic binding for an absent name. -/
def Obj.base_set_property_local (o : Obj) (n : QName) (v : Value) :
    Obj × Except Err Unit :=
  match lookupProp o.values n with
  | some (.slotP id _) => (o.withValues (storeProp o.values n (.slotP id v)), .ok ())
  | some (.constP id _) => (o.withValues (storeProp o.values n (.constP id v)), .ok ())
  | some (.dynamicP _) => (o.withValues (storeProp o.values n (.dynamicP v)), .ok ())
  | some (.methodP _ _) => (o, .error (.ReadOnlyOverwrite n.local_name))
  | some (.virtualP _ (some _)) => (o, .ok ())
  | some (.virtualP _ none) => (o, .error (.ReadOnlyOverwrite n.local_name))
  | none => (o.withValues (o.values ++ [(n, .dynamicP v)]), .ok ())

/-- Modelled from the spec: base `init_property_local` — like a set but
bypassing setter semantics and writing own storage directly. -/
def Obj.base_init_property_local (o : Obj) (n : QName) (v : Value) :
    Obj × Except Err Unit :=
  match lookupProp o.values n with
  | some (.slotP id _) => (o.withValues (storeProp o.values n (.slotP id v)), .ok ())
  | some (.constP id _) => (o.withValues (storeProp o.values n (.constP id v)), .ok ())
  | some (.dynamicP _) => (o.withValues (storeProp o.values n (.dynamicP v)), .ok ())
  | some (.methodP _ _) => (o, .error (.ReadOnlyOverwrite n.local_name))
  | some (.virtualP _ _) => (o.withValues (storeProp o.values n (.dynamicP v)), .ok ())
  | none => (o.withValues (o.values ++ [(n, .dynamicP v)]), .ok ())

/-- The value a vector write actually stores (vector_object.rs): the
incoming value coerced to the element type, with a coerced `Undefined` or
`Null` collapsed to the element type's default. -/
def storedForm (s : VectorStorage) (v : Value) : Value :=
  match s.valueType.coerce v with
  | .undefinedV => s.defaultValue
  | .nullV => s.defaultValue
  | w => w

/-- Dispatching `set_property_local`: the `VectorObject` override coerces
the value to the element type, collapses a coerced `Undefined`/`Null` to
the element type's default, and writes vector storage (vector_object.rs). -/
def Obj.set_property_local : Obj → QName → Value → Obj × Except Err Unit
  | .mk vals proto io (.vectorK s), n, v =>
    let o := Obj.mk vals proto io (.vectorK s)
    if n.ns.is_package "" then
      match parseUsize n.local_name with
      | some idx =>
        match s.set idx (storedForm s v) with
        | .ok s' => (Obj.mk vals proto io (.vectorK s'), .ok ())
        | .error e => (o, .error e)
      | none => o.base_set_property_local n v
    else o.base_set_property_local n v
  | o, n, v => o.base_set_property_local n v

/-- Dispatching `init_property_local`: the `VectorObject` override is the
same interception as for sets (vector_object.rs). -/
def Obj.init_property_local : Obj → QName → Value → Obj × Except Err Unit
  | .mk vals proto io (.vectorK s), n, v =>
    let o := Obj.mk vals proto io (.vectorK s)
    if n.ns.is_package "" then
      match parseUsize n.local_name with
      | some idx =>
        match s.set idx (storedForm s v) with
        | .ok s' => (Obj.mk vals proto io (.vectorK s'), .ok ())
        | .error e => (o, .error e)
      | none => o.base_init_property_local n v
    else o.base_init_property_local n v
  | o, n, v => o.base_init_property_local n v

/-- Modelled from the spec: whether an own binding may be removed — a
lazily-bound method, once installed, behaves as a method binding and is
rejected as a deletion target, everything else is removable. -/
def Property.can_delete : Property → Bool
  | .methodP _ _ => false
  | _ => true

/-- Modelled from the spec: base `delete_property` — remove the own
binding and report whether removal occurred. -/
def Obj.base_delete_property (o : Obj) (n : QName) : Obj × Bool :=
  match lookupProp o.values n with
  | some p =>
    if p.can_delete then (o.withValues (removeProp o.values n), true)
    else (o, false)
  | none => (o, false)

/-- Dispatching `delete_property_local`: the `VectorObject` override
reports success for every public index name without touching storage
(vector_object.rs); everything else goes to the base removal. -/
def Obj.delete_property_local (o : Obj) (n : QName) : Obj × Except Err Bool :=
  match o.kind with
  | .vectorK _ =>
    if n.ns.is_package "" && (parseUsize n.local_name).isSome then (o, .ok true)
    else
      let r := o.base_delete_property n
      (r.1, .ok r.2)
  | _ =>
    let r := o.base_delete_property n
    (r.1, .ok r.2)

/-- Default `get_property_undef` (object.rs): `Undefined` on non-sealed
instances, an undefined-property-read failure on sealed ones. -/
def Obj.get_property_undef (o : Obj) (m : Multiname) : Except Err Value :=
  if !o.instance_sealed then .ok .undefinedV
  else .error (.UndefinedPropertyRead m.localName)

/-- Default `set_property_undef` (object.rs): non-sealed instances get a
public-namespace dynamic name synthesized from the local name (failing
when there is none); sealed instances fail. -/
def Obj.set_property_undef (o : Obj) (m : Multiname) (_v : Value) :
    Except Err (Option QName) :=
  if !o.instance_sealed then
    match m.localName with
    | some nm => .ok (some (QName.dynamic_name nm))
    | none => .error (.UndefinedPropertyWrite none)
  else .error (.UndefinedPropertyWrite m.localName)

/-- Default `delete_property_undef` (object.rs): deletion of an unknown
name succeeds exactly on non-sealed instances — no error is raised. -/
def Obj.delete_property_undef (o : Obj) : Bool :=
  !o.instance_sealed

/-- The instance-method read-only guard used by set/init/delete. -/
def Obj.instance_method_of (o : Obj) (n : QName) : Option Trait :=
  o.instance_of.bind (fun c => c.instance_method n)

/-- The class-method read-only guard used by set/init/delete. -/
def Obj.class_method_of (o : Obj) (n : QName) : Option Trait :=
  o.as_class_object.bind (fun c => c.class_method n)

/-- Base `install_method`: store a bound method under the name (object.rs
delegating to the base map). -/
def Obj.install_method (o : Obj) (n : QName) (dispId : Nat) (fnId : Nat) : Obj :=
  o.withValues (storeProp o.values n (.methodP dispId fnId))

/-- Default `get_property` (object.rs): resolve the multiname, falling to
the undefined-name hook on failure; materialize a lazy-bound instance or
class method; answer from own storage unless only a setter exists; else
delegate to the prototype; else `Undefined`. -/
def Obj.get_property : Obj → Multiname → Obj × Except Err Value
  | .mk vals proto io k, m =>
    let o := Obj.mk vals proto io k
    match o.resolve_multiname m with
    | none => (o, o.get_property_undef m)
    | some name =>
      let lazyBound : Option (Nat × Nat) :=
        if !o.has_own_instantiated_property name then
          match o.instance_of.bind (fun c => c.bound_instance_method name) with
          | some fd => some fd
          | none => o.as_class_object.bind (fun c => c.bound_class_method name)
        else none
      match lazyBound with
      | some (fnId, dispId) => (o.install_method name dispId fnId, .ok (.objV fnId))
      | none =>
        let is_set_only := o.has_own_virtual_set_only_property name
        if o.has_own_property name && !is_set_only then (o, o.get_property_local name)
        else
          match proto with
          | some p =>
            let r := p.get_property m
            (Obj.mk vals (some r.1) io k, r.2)
          | none => (o, .ok .undefinedV)

/-- Default `set_property` (object.rs): resolve (or synthesize via the
undefined-name hook), reject names bound to an instance or class method as
read-only, and only then write locally. -/
def Obj.set_property (o : Obj) (m : Multiname) (v : Value) :
    Obj × Except Err Unit :=
  let resolved : Except Err (Option QName) :=
    match o.resolve_multiname m with
    | some n => .ok (some n)
    | none => o.set_property_undef m v
  match resolved with
  | .error e => (o, .error e)
  | .ok none => (o, .ok ())
  | .ok (some name) =>
    if (o.instance_method_of name).isSome then
      (o, .error (.ReadOnlyOverwrite name.local_name))
    else if (o.class_method_of name).isSome then
      (o, .error (.ReadOnlyOverwrite name.local_name))
    else o.set_property_local name v

/-- Default `init_property` (object.rs): identical shape to `set_property`
but ending in the init-local path. -/
def Obj.init_property (o : Obj) (m : Multiname) (v : Value) :
    Obj × Except Err Unit :=
  let resolved : Except Err (Option QName) :=
    match o.resolve_multiname m with
    | some n => .ok (some n)
    | none => o.set_property_undef m v
  match resolved with
  | .error e => (o, .error e)
  | .ok none => (o, .ok ())
  | .ok (some name) =>
    if (o.instance_method_of name).isSome then
      (o, .error (.ReadOnlyOverwrite name.local_name))
    else if (o.class_method_of name).isSome then
      (o, .error (.ReadOnlyOverwrite name.local_name))
    else o.init_property_local name v

/-- Default `delete_property` (object.rs): resolve (or hand off to the
undefined-name hook); for a not-yet-instantiated name bound to a declared
instance or class method report failure before any lazy bind; otherwise
delete locally. -/
def Obj.delete_property (o : Obj) (m : Multiname) : Obj × Except Err Bool :=
  match o.resolve_multiname m with
  | none => (o, .ok o.delete_property_undef)
  | some name =>
    if !o.has_own_instantiated_property name then
      if (o.instance_method_of name).isSome then (o, .ok false)
      else if (o.class_method_of name).isSome then (o, .ok false)
      else o.delete_property_local name
    else o.delete_property_local name

/-- Dispatching `get_next_enumerant`: the default walks own bindings (the
base cursor is modelled from the spec); the `VectorObject` override walks
the current vector length with u32 arithmetic — the cast (`% 2^32`) and
`saturating_add` of the source are explicit here (vector_object.rs). -/
def Obj.get_next_enumerant (o : Obj) (last_index : Nat) : Option Nat :=
  match o.kind with
  | .vectorK s =>
    if last_index < s.length % 2 ^ 32 then
      some (min (last_index + 1) (2 ^ 32 - 1))
    else none
  | _ =>
    if last_index < o.values.length then some (last_index + 1) else none

/-- Modelled from the spec: base `install_slot`. -/
def Obj.install_slot (o : Obj) (n : QName) (id : Nat) (v : Value) : Obj :=
  o.withValues (storeProp o.values n (.slotP id v))

/-- Modelled from the spec: base `install_const`. -/
def Obj.install_const (o : Obj) (n : QName) (id : Nat) (v : Value) : Obj :=
  o.withValues (storeProp o.values n (.constP id v))

/-- Modelled from the spec: base `install_getter` — merge into an existing
virtual binding or create one; the synthesized bound callable's runtime
result is abstracted. -/
def Obj.install_getter (o : Obj) (n : QName) (fnId : Nat) : Obj :=
  match lookupProp o.values n with
  | some (.virtualP _ setr) =>
    o.withValues (storeProp o.values n (.virtualP (some ⟨fnId, .undefinedV⟩) setr))
  | _ => o.withValues (storeProp o.values n (.virtualP (some ⟨fnId, .undefinedV⟩) none))

/-- Modelled from the spec: base `install_setter`, dual to
`install_getter`. -/
def Obj.install_setter (o : Obj) (n : QName) (fnId : Nat) : Obj :=
  match lookupProp o.values n with
  | some (.virtualP g _) =>
    o.withValues (storeProp o.values n (.virtualP g (some fnId)))
  | _ => o.withValues (storeProp o.values n (.virtualP none (some fnId)))

/-- `install_trait` (object.rs): slot/const traits install their default
value; getter/setter traits eagerly install a synthesized bound callable;
class and function traits reserve an `Undefined` const slot; method traits
install nothing (they stay lazy). The scope chain and defining class of
the source only shape the synthesized closures and are abstracted away. -/
def Obj.install_trait (o : Obj) (t : Trait) : Obj :=
  match t.kind with
  | .slotK slotId default_value => o.install_slot t.name slotId default_value
  | .methodK _ _ => o
  | .getterK _ fnId => o.install_getter t.name fnId
  | .setterK _ fnId => o.install_setter t.name fnId
  | .classTraitK slotId => o.install_const t.name slotId .undefinedV
  | .functionK slotId => o.install_const t.name slotId .undefinedV
  | .constK slotId default_value => o.install_const t.name slotId default_value

/-- `install_traits` (object.rs): install a list of traits in order. -/
def Obj.install_traits (o : Obj) (ts : List Trait) : Obj :=
  ts.foldl Obj.install_trait o

/-- `install_instance_traits` (object.rs): recursively install the
superclass's instance traits first, then the class's own. -/
def Obj.install_instance_traits (o : Obj) : ClassObject → Obj
  | .mk sup _ it _ =>
    let o' :=
      match sup with
      | some s => o.install_instance_traits s
      | none => o
    o'.install_traits it

/-- Whether the variant-specific local write/delete path intercepts this
qualified name instead of reaching the shared base storage: true exactly
for a public integer-index name on a vector object. -/
def Obj.index_intercepted (o : Obj) (n : QName) : Bool :=
  match o.kind with
  | .vectorK _ => n.ns.is_package "" && (parseUsize n.local_name).isSome
  | _ => false

/-- The (finite, by construction) prototype chain of an object, starting
with the object itself. -/
def Obj.protoChain : Obj → List Obj
  | .mk vals p io k =>
    Obj.mk vals p io k ::
      (match p with
       | some q => q.protoChain
       | none => [])

/-- The root-to-leaf concatenation of a class hierarchy's declared
instance traits: all ancestors' traits first, the class's own traits
last. -/
def ClassObject.traitSeq : ClassObject → List Trait
  | .mk sup _ it _ =>
    (match sup with
     | some s => s.traitSeq
     | none => []) ++ it

/-- The own-binding count that drives the enumeration cursor: the current
vector length for a vector object, the own-storage size otherwise. -/
def Obj.ownEnumCount (o : Obj) : Nat :=
  match o.kind with
  | .vectorK s => s.length
  | _ => o.values.length

/-- The index sequence produced by repeatedly feeding `get_next_enumerant`
its own previous result, observed for at most `fuel` steps. -/
def enumTrace (o : Obj) : Nat → Nat → List Nat
  | 0, _ => []
  | fuel + 1, i =>
    match o.get_next_enumerant i with
    | some j => j :: enumTrace o fuel j
    | none => []

/-- C6 (amended): deleting a multiname that resolves to no qualified name
reports success (true) on a non-sealed instance and reports failure
(false) on a sealed-class instance — the sealed case returns false rather
than raising an UndefinedPropertyWrite error, and storage is untouched
either way. -/
theorem delete_of_unresolved_name (o : Obj) (m : Multiname)
    (hres : o.resolve_multiname m = none) :
    o.delete_property m = (o, Except.ok (!o.instance_sealed)) := by
  simp [Obj.delete_property, hres, Obj.delete_property_undef]

def c6SealedClass : ClassObject := .mk none true [] []

def c6SealedObj : Obj := .mk [] none (some c6SealedClass) .script

def c6Mn : Multiname := ⟨some "x", [Namespace.publicNs]⟩

/-- C6 counterexample: on a concrete sealed-class instance whose
resolution of `x` fails, `delete_property` returns `Ok(false)` — it does
not fail with an UndefinedPropertyWrite error as the claim states. -/
theorem delete_of_unresolved_name_cex :
    c6SealedObj.instance_sealed = true ∧
    c6SealedObj.resolve_multiname c6Mn = none ∧
    c6SealedObj.delete_property c6Mn = (c6SealedObj, Except.ok false) :=
  ⟨rfl, rfl, rfl⟩

def c6DynObj : Obj := .mk [] none none .script

/-- C6 witness: the amended theorem applied to a concrete non-sealed
object evaluates to a successful deletion report. -/
theorem delete_of_unresolved_name_witness :
    c6DynObj.resolve_multiname c6Mn = none ∧
    c6DynObj.delete_property c6Mn = (c6DynObj, Except.ok true) :=
  ⟨rfl, delete_of_unresolved_name c6DynObj c6Mn rfl⟩

/-- C7: `has_property` holds exactly when the object has an own binding
for the name or its immediate prototype has an own binding for it — one
prototype hop, by repeated own-checks. -/
theorem has_property_own_or_immediate_proto (o : Obj) (n : QName) :
    o.has_property n = true ↔
      (o.has_own_property n = true ∨
        ∃ p, o.proto = some p ∧ p.has_own_property n = true) := by
  cases hown : o.has_own_property n with
  | true => simp [Obj.has_property, hown]
  | false =>
    cases hp : o.proto with
    | none => simp [Obj.has_property, hown, hp]
    | some p => simp [Obj.has_property, hown, hp]

/-- C3: on an instance whose class (chain) declares an instance method
under the resolved name, both `set_property` and `init_property` fail
with a ReadOnlyOverwrite error and leave the object's storage unchanged;
the guard consults the class table, so it fires whether or not the method
has been materialized into own storage. -/
theorem set_init_reject_declared_method (o : Obj) (m : Multiname) (n : QName)
    (v : Value)
    (hres : o.resolve_multiname m = some n)
    (hm : (o.instance_method_of n).isSome = true) :
    o.set_property m v = (o, Except.error (Err.ReadOnlyOverwrite n.local_name)) ∧
    o.init_property m v = (o, Except.error (Err.ReadOnlyOverwrite n.local_name)) := by
  constructor
  · simp [Obj.set_property, hres, hm]
  · simp [Obj.init_property, hres, hm]

def c3Class : ClassObject := .mk none true [⟨QName.dynamic_name "m", .methodK 7 42⟩] []

def c3Obj : Obj := .mk [] none (some c3Class) .script

def c3Mn : Multiname := ⟨some "m", [Namespace.publicNs]⟩

def c3ObjAfterRead : Obj := (c3Obj.get_property c3Mn).1

/-- C3 witness: a concrete instance of a class declaring method `m`
rejects the write both before materialization and after a prior read has
installed the bound method into own storage. -/
theorem set_init_reject_declared_method_witness :
    (c3Obj.values = [] ∧
      c3Obj.set_property c3Mn (Value.numberV 5)
        = (c3Obj, Except.error (Err.ReadOnlyOverwrite "m"))) ∧
    (c3ObjAfterRead.values = [(QName.dynamic_name "m", Property.methodP 7 42)] ∧
      c3ObjAfterRead.set_property c3Mn (Value.numberV 5)
        = (c3ObjAfterRead, Except.error (Err.ReadOnlyOverwrite "m"))) :=
  ⟨⟨rfl,
    (set_init_reject_declared_method c3Obj c3Mn (QName.dynamic_name "m")
      (Value.numberV 5) rfl rfl).1⟩,
   ⟨rfl,
    (set_init_reject_declared_method c3ObjAfterRead c3Mn (QName.dynamic_name "m")
      (Value.numberV 5) rfl rfl).1⟩⟩

/-- C4: deleting a name bound to an instance or class method is rejected
(`Ok(false)`, storage untouched) both when the method is not yet
materialized (the guard fires before any lazy bind) and when a prior read
has materialized it into own storage (a method binding is not removable);
the hypothesis excludes the vector variant's unrelated index interception
of the local delete path. -/
theorem delete_rejects_method_bindings (o : Obj) (m : Multiname) (n : QName)
    (hres : o.resolve_multiname m = some n)
    (hni : o.index_intercepted n = false)
    (h : (lookupProp o.values n = none ∧
            ((o.instance_method_of n).isSome = true ∨
             (o.class_method_of n).isSome = true)) ∨
         ∃ d f, lookupProp o.values n = some (.methodP d f)) :
    o.delete_property m = (o, Except.ok false) := by
  rcases h with ⟨hnone, hg⟩ | ⟨d, f, hmeth⟩
  · have hinst : o.has_own_instantiated_property n = false := by
      simp [Obj.has_own_instantiated_property, hnone]
    rcases hg with hi | hc
    · simp [Obj.delete_property, hres, hinst, hi]
    · cases hio : (o.instance_method_of n).isSome with
      | true => simp [Obj.delete_property, hres, hinst, hio]
      | false => simp [Obj.delete_property, hres, hinst, hio, hc]
  · have hinst : o.has_own_instantiated_property n = true := by
      simp [Obj.has_own_instantiated_property, hmeth]
    have hloc : o.delete_property_local n = (o, Except.ok false) := by
      cases o with
      | mk vals proto io k =>
        cases k with
        | script =>
          simp_all [Obj.delete_property_local, Obj.kind, Obj.base_delete_property,
            Property.can_delete, Obj.values]
        | vectorK s =>
          simp [Obj.index_intercepted, Obj.kind] at hni
          simp_all [Obj.delete_property_local, Obj.kind, Obj.base_delete_property,
            Property.can_delete, Obj.values]
        | classK c =>
          simp_all [Obj.delete_property_local, Obj.kind, Obj.base_delete_property,
            Property.can_delete, Obj.values]
    simp [Obj.delete_property, hres, hinst, hloc]

def c4Class : ClassObject := .mk none false [⟨QName.dynamic_name "f", .methodK 3 9⟩] []

def c4Obj : Obj := .mk [] none (some c4Class) .script

def c4Mn : Multiname := ⟨some "f", [Namespace.publicNs]⟩

def c4ObjMat : Obj := (c4Obj.get_property c4Mn).1

/-- C4 witness: a concrete instance resists deletion of its declared
method `f` both before materialization and after a prior read installed
the bound method. -/
theorem delete_rejects_method_bindings_witness :
    (c4Obj.values = [] ∧
      c4Obj.delete_property c4Mn = (c4Obj, Except.ok false)) ∧
    (c4ObjMat.values = [(QName.dynamic_name "f", Property.methodP 3 9)] ∧
      c4ObjMat.delete_property c4Mn = (c4ObjMat, Except.ok false)) :=
  ⟨⟨rfl,
    delete_rejects_method_bindings c4Obj c4Mn (QName.dynamic_name "f") rfl rfl
      (Or.inl ⟨rfl, Or.inl rfl⟩)⟩,
   ⟨rfl,
    delete_rejects_method_bindings c4ObjMat c4Mn (QName.dynamic_name "f") rfl rfl
      (Or.inr ⟨3, 9, rfl⟩)⟩⟩

theorem withValues_kind (o : Obj) (l : List (QName × Property)) :
    (o.withValues l).kind = o.kind := by
  cases o
  rfl

theorem base_delete_kind (o : Obj) (n : QName) :
    (o.base_delete_property n).1.kind = o.kind := by
  unfold Obj.base_delete_property
  cases lookupProp o.values n with
  | none => rfl
  | some p =>
    cases hd : p.can_delete with
    | true => simp [hd, withValues_kind]
    | false => simp [hd]

/-- C10: on a vector object, a local delete of any public integer-index
qualified name reports success while leaving the entire object — vector
elements, length, and base bindings — unchanged, even out of range; the
vector storage survives every local delete, and a local delete can only
change the base bindings when the name is not a public index name. -/
theorem vector_delete_local_index_interception (vals : List (QName × Property))
    (proto : Option Obj) (io : Option ClassObject) (s : VectorStorage)
    (n : QName) :
    ((n.ns.is_package "" && (parseUsize n.local_name).isSome) = true →
      (Obj.mk vals proto io (.vectorK s)).delete_property_local n
        = (Obj.mk vals proto io (.vectorK s), Except.ok true)) ∧
    ((Obj.mk vals proto io (.vectorK s)).delete_property_local n).1.as_vector_storage
      = some s ∧
    (((Obj.mk vals proto io (.vectorK s)).delete_property_local n).1.values ≠ vals →
      (n.ns.is_package "" && (parseUsize n.local_name).isSome) = false) := by
  cases hcond : (n.ns.is_package "" && (parseUsize n.local_name).isSome) with
  | true =>
    refine ⟨fun _ => ?_, ?_, fun hv => ?_⟩
    · simp [Obj.delete_property_local, Obj.kind, hcond]
    · simp [Obj.delete_property_local, Obj.kind, hcond, Obj.as_vector_storage]
    · exact absurd (by simp [Obj.delete_property_local, Obj.kind, hcond, Obj.values]) hv
  | false =>
    refine ⟨fun hc => absurd hc (by simp [hcond]), ?_, fun _ => rfl⟩
    have hk :
        ((Obj.mk vals proto io (.vectorK s)).delete_property_local n).1.kind
          = ObjKind.vectorK s := by
      simp only [Obj.delete_property_local, Obj.kind, hcond, Bool.false_eq_true,
        if_false]
      exact base_delete_kind (Obj.mk vals proto io (.vectorK s)) n
    simp only [Obj.as_vector_storage, hk]

/-- C5: on a vector object, a public integer-index get returns the element
or `Undefined` when out of range and never errors; an in-range set stores
the type-coerced form of the written value (the coerced `Undefined`/`Null`
collapsing to the element type's default), so a subsequent get of that
index returns exactly that coerced-or-default form. -/
theorem vector_index_get_set (vals : List (QName × Property)) (proto : Option Obj)
    (io : Option ClassObject) (s : VectorStorage) (n : QName) (idx : Nat)
    (v : Value)
    (hpub : n.ns.is_package "" = true)
    (hidx : parseUsize n.local_name = some idx) :
    (Obj.mk vals proto io (.vectorK s)).get_property_local n
      = Except.ok ((s.get idx).getD Value.undefinedV) ∧
    (idx < s.length →
      (Obj.mk vals proto io (.vectorK s)).set_property_local n v
        = (Obj.mk vals proto io
            (.vectorK { s with storage := s.storage.set idx (storedForm s v) }),
           Except.ok ())) ∧
    ((s.valueType.coerce v = Value.undefinedV ∨ s.valueType.coerce v = Value.nullV) →
      storedForm s v = s.defaultValue) ∧
    (idx < s.length →
      (((Obj.mk vals proto io (.vectorK s)).set_property_local n v).1).get_property_local n
        = Except.ok (storedForm s v)) := by
  have hset : ∀ h : idx < s.length,
      s.set idx (storedForm s v)
        = Except.ok { s with storage := s.storage.set idx (storedForm s v) } := by
    intro h
    have hne : (idx == s.storage.length) = false := by
      simp [VectorStorage.length] at h
      simp [Nat.ne_of_lt h]
    simp [VectorStorage.set, hne, VectorStorage.length] at *
    simp [h]
  refine ⟨?_, fun h => ?_, fun h => ?_, fun h => ?_⟩
  · simp [Obj.get_property_local, Obj.kind, hpub, hidx]
  · simp [Obj.set_property_local, hpub, hidx, hset h]
  · rcases h with h | h <;> simp [storedForm, h]
  · simp only [Obj.set_property_local, hpub, if_true, hidx, hset h]
    have hlt : idx < s.storage.length := by
      simpa [VectorStorage.length] using h
    simp [Obj.get_property_local, Obj.kind, hpub, hidx, VectorStorage.get,
      List.get?_eq_getElem?, List.getElem?_set_eq_of_lt _ hlt]

def c5Elem : ElemType := ⟨fun v => v, Value.nullV⟩

def c5Store : VectorStorage :=
  ⟨[Value.numberV 10, Value.numberV 20, Value.numberV 30], false, c5Elem⟩

def c5Obj : Obj := .mk [] none none (.vectorK c5Store)

def c5N1 : QName := ⟨Namespace.publicNs, "1"⟩

def c5N5 : QName := ⟨Namespace.publicNs, "5"⟩

/-- C5 witness: on a concrete length-3 vector, `get(5)` yields Undefined,
`set(1, Undefined)` stores the element type's default (here Null), and
`set(1, 7)` round-trips the coerced value. -/
theorem vector_index_get_set_witness :
    c5Obj.get_property_local c5N5 = Except.ok Value.undefinedV ∧
    ((c5Obj.set_property_local c5N1 Value.undefinedV).1.get_property_local c5N1
      = Except.ok Value.nullV) ∧
    ((c5Obj.set_property_local c5N1 (Value.numberV 7)).1.get_property_local c5N1
      = Except.ok (Value.numberV 7)) :=
  ⟨(vector_index_get_set [] none none c5Store c5N5 5 Value.undefinedV rfl rfl).1,
   (vector_index_get_set [] none none c5Store c5N1 1 Value.undefinedV rfl rfl).2.2.2
     (by decide),
   (vector_index_get_set [] none none c5Store c5N1 1 (Value.numberV 7) rfl rfl).2.2.2
     (by decide)⟩

def c10NIdx : QName := ⟨Namespace.publicNs, "9"⟩

def c10NOther : QName := ⟨Namespace.PrivateNs "p", "q"⟩

/-- C10 witness: a local delete of the out-of-range public index `9` on a
concrete vector reports success and leaves the object unchanged, and a
local delete of a non-index name preserves the vector storage. -/
theorem vector_delete_local_index_interception_witness :
    c5Obj.delete_property_local c10NIdx = (c5Obj, Except.ok true) ∧
    (c5Obj.delete_property_local c10NOther).1.as_vector_storage = some c5Store :=
  ⟨(vector_delete_local_index_interception [] none none c5Store c10NIdx).1 rfl,
   (vector_delete_local_index_interception [] none none c5Store c10NOther).2.1⟩

/-- C1 (amended): for a multiname that resolves to no qualified name, the
default handling is — sealed instance: get fails with
UndefinedPropertyRead, set fails with UndefinedPropertyWrite; non-sealed
instance: get yields Undefined, set synthesizes a public-namespace name
from the multiname's local name, the hook erring exactly when there is no
local name; the write then runs the ordinary local path, which creates a
new public dynamic binding when the synthesized name is unbound, is not a
declared instance/class method, and is not intercepted by the variant
(otherwise the write may still fail, e.g. with ReadOnlyOverwrite). -/
theorem undefined_name_default_handling (o : Obj) (m : Multiname) (v : Value)
    (hres : o.resolve_multiname m = none) :
    (o.instance_sealed = true →
      o.get_property m = (o, Except.error (Err.UndefinedPropertyRead m.localName)) ∧
      o.set_property m v = (o, Except.error (Err.UndefinedPropertyWrite m.localName))) ∧
    (o.instance_sealed = false →
      o.get_property m = (o, Except.ok Value.undefinedV) ∧
      (m.localName = none →
        o.set_property m v = (o, Except.error (Err.UndefinedPropertyWrite none))) ∧
      (∀ nm, m.localName = some nm →
        (o.instance_method_of (QName.dynamic_name nm)).isSome = false →
        (o.class_method_of (QName.dynamic_name nm)).isSome = false →
        o.index_intercepted (QName.dynamic_name nm) = false →
        lookupProp o.values (QName.dynamic_name nm) = none →
        o.set_property m v
          = (o.withValues
              (o.values ++ [(QName.dynamic_name nm, Property.dynamicP v)]),
             Except.ok ()))) := by
  have hget : o.get_property m = (o, o.get_property_undef m) := by
    cases o with
    | mk vals proto io k =>
      rw [Obj.get_property.eq_def]
      simp [hres]
  have hbase : ∀ nm,
      o.index_intercepted (QName.dynamic_name nm) = false →
      lookupProp o.values (QName.dynamic_name nm) = none →
      o.set_property_local (QName.dynamic_name nm) v
        = (o.withValues (o.values ++ [(QName.dynamic_name nm, Property.dynamicP v)]),
           Except.ok ()) := by
    intro nm hni hlk
    cases o with
    | mk vals proto io k =>
      cases k with
      | script =>
        simp_all [Obj.set_property_local, Obj.base_set_property_local, Obj.values]
      | classK c =>
        simp_all [Obj.set_property_local, Obj.base_set_property_local, Obj.values]
      | vectorK s =>
        have hpub : (QName.dynamic_name nm).ns.is_package "" = true := by
          simp [QName.dynamic_name, Namespace.publicNs, Namespace.is_package]
        have hparse : parseUsize (QName.dynamic_name nm).local_name = none := by
          simp only [Obj.index_intercepted, Obj.kind, hpub, Bool.true_and] at hni
          cases hp : parseUsize (QName.dynamic_name nm).local_name with
          | none => rfl
          | some k => rw [hp] at hni; simp at hni
        simp_all [Obj.set_property_local, Obj.base_set_property_local, Obj.values]
  constructor
  · intro hs
    refine ⟨?_, ?_⟩
    · rw [hget]
      simp [Obj.get_property_undef, hs]
    · have h1 : o.set_property_undef m v
          = .error (.UndefinedPropertyWrite m.localName) := by
        simp [Obj.set_property_undef, hs]
      simp [Obj.set_property, hres, h1]
  · intro hs
    refine ⟨?_, fun hnone => ?_, fun nm hnm hi hc hni hlk => ?_⟩
    · rw [hget]
      simp [Obj.get_property_undef, hs]
    · have h1 : o.set_property_undef m v
          = .error (.UndefinedPropertyWrite none) := by
        simp [Obj.set_property_undef, hs, hnone]
      simp [Obj.set_property, hres, h1]
    · have h1 : o.set_property_undef m v = .ok (some (QName.dynamic_name nm)) := by
        simp [Obj.set_property_undef, hs, hnm]
      simp [Obj.set_property, hres, h1, hi, hc, hbase nm hni hlk]

def c1Class : ClassObject := .mk none false [⟨QName.dynamic_name "m", .methodK 1 5⟩] []

def c1Obj : Obj := .mk [] none (some c1Class) .script

def c1Mn : Multiname := ⟨some "m", [Namespace.PrivateNs "p"]⟩

/-- C1 counterexample: a non-sealed instance whose class declares an
instance method `m` in the public namespace, probed with a multiname whose
namespace set misses public: resolution fails, the multiname has a local
name, yet `set_property` errs with ReadOnlyOverwrite instead of creating a
dynamic binding — refuting "erroring only if the multiname has no local
name". -/
theorem undefined_name_default_handling_cex :
    c1Obj.resolve_multiname c1Mn = none ∧
    c1Obj.instance_sealed = false ∧
    c1Mn.localName = some "m" ∧
    c1Obj.set_property c1Mn (Value.numberV 1)
      = (c1Obj, Except.error (Err.ReadOnlyOverwrite "m")) :=
  ⟨rfl, rfl, rfl, rfl⟩

def c1SealedClass : ClassObject := .mk none true [] []

def c1SealedObj : Obj := .mk [] none (some c1SealedClass) .script

def c1DynObj : Obj := .mk [] none none .script

def c1MnX : Multiname := ⟨some "x", [Namespace.PrivateNs "q"]⟩

/-- C1 witness: the amended theorem applied to a concrete sealed instance
(read and write both fail) and to a concrete dynamic object (read yields
Undefined, write creates the public dynamic binding). -/
theorem undefined_name_default_handling_witness :
    (c1SealedObj.get_property c1MnX
      = (c1SealedObj, Except.error (Err.UndefinedPropertyRead (some "x")))) ∧
    (c1SealedObj.set_property c1MnX (Value.numberV 7)
      = (c1SealedObj, Except.error (Err.UndefinedPropertyWrite (some "x")))) ∧
    (c1DynObj.get_property c1MnX = (c1DynObj, Except.ok Value.undefinedV)) ∧
    (c1DynObj.set_property c1MnX (Value.numberV 7)
      = (c1DynObj.withValues
          [(QName.dynamic_name "x", Property.dynamicP (Value.numberV 7))],
         Except.ok ())) :=
  ⟨((undefined_name_default_handling c1SealedObj c1MnX (Value.numberV 7) rfl).1 rfl).1,
   ((undefined_name_default_handling c1SealedObj c1MnX (Value.numberV 7) rfl).1 rfl).2,
   ((undefined_name_default_handling c1DynObj c1MnX (Value.numberV 7) rfl).2 rfl).1,
   ((undefined_name_default_handling c1DynObj c1MnX (Value.numberV 7) rfl).2 rfl).2.2
     "x" rfl rfl rfl rfl rfl⟩

theorem withValues_values (o : Obj) (l : List (QName × Property)) :
    (o.withValues l).values = l := by
  cases o
  rfl

theorem install_instance_traits_traitSeq : ∀ (c : ClassObject) (o : Obj),
    o.install_instance_traits c = o.install_traits c.traitSeq
  | .mk none b it ct, o => by
    simp [Obj.install_instance_traits, ClassObject.traitSeq]
  | .mk (some s) b it ct, o => by
    have ih := install_instance_traits_traitSeq s o
    simp [Obj.install_instance_traits, ClassObject.traitSeq, ih, Obj.install_traits,
      List.foldl_append]

theorem lookup_storeProp (vals : List (QName × Property)) (n : QName)
    (p : Property) :
    lookupProp (storeProp vals n p) n = some p := by
  induction vals with
  | nil => simp [storeProp, lookupProp]
  | cons kv rest ih =>
    obtain ⟨k, q⟩ := kv
    by_cases h : k == n
    · simp [storeProp, lookupProp, h]
    · simp only [storeProp, h, Bool.false_eq_true, if_false]
      simpa [lookupProp, List.find?, h] using ih

/-- C8: `install_instance_traits` applies exactly the root-to-leaf
concatenation of the class hierarchy's declared instance traits — every
ancestor's traits strictly before the class's own — so that a trait
installed later (the subclass's) overwrites the binding left by an earlier
(inherited) one with the same name. -/
theorem install_instance_traits_root_to_leaf (o : Obj) (c : ClassObject) :
    o.install_instance_traits c = o.install_traits c.traitSeq ∧
    ∀ (ts : List Trait) (n : QName) (id : Nat) (v : Value),
      lookupProp (o.install_traits (ts ++ [⟨n, .slotK id v⟩])).values n
        = some (.slotP id v) := by
  refine ⟨install_instance_traits_traitSeq c o, fun ts n id v => ?_⟩
  simp only [Obj.install_traits, List.foldl_append, List.foldl_cons, List.foldl_nil]
  simp [Obj.install_trait, Obj.install_slot, withValues_values, lookup_storeProp]

theorem gne_uniform (o : Obj) (hN : o.ownEnumCount < 2 ^ 32) (i : Nat)
    (hi : i ≤ o.ownEnumCount) :
    o.get_next_enumerant i
      = if i < o.ownEnumCount then some (i + 1) else none := by
  cases o with
  | mk vals proto io k =>
    cases k with
    | script =>
      simp [Obj.get_next_enumerant, Obj.kind, Obj.ownEnumCount, Obj.values]
    | classK c =>
      simp [Obj.get_next_enumerant, Obj.kind, Obj.ownEnumCount, Obj.values]
    | vectorK s =>
      have hN' : s.length < 2 ^ 32 := by
        simpa [Obj.ownEnumCount, Obj.kind] using hN
      have hmod : s.length % 2 ^ 32 = s.length := Nat.mod_eq_of_lt hN'
      by_cases hlt : i < s.length
      · have hmin : min (i + 1) (2 ^ 32 - 1) = i + 1 := by omega
        simp only [Obj.get_next_enumerant, Obj.kind, Obj.ownEnumCount]
        rw [hmod]
        simp [hlt, hmin]
        omega
      · simp only [Obj.get_next_enumerant, Obj.kind, Obj.ownEnumCount]
        rw [hmod]
        simp [hlt]

theorem enumTrace_range (o : Obj) (hN : o.ownEnumCount < 2 ^ 32) :
    ∀ (fuel i : Nat), i ≤ o.ownEnumCount →
      enumTrace o fuel i = List.range' (i + 1) (min fuel (o.ownEnumCount - i)) := by
  intro fuel
  induction fuel with
  | zero => intro i _; simp [enumTrace]
  | succ f ih =>
    intro i hi
    rw [enumTrace, gne_uniform o hN i hi]
    by_cases hlt : i < o.ownEnumCount
    · simp only [hlt, if_true]
      rw [ih (i + 1) (by omega)]
      have h1 : min (f + 1) (o.ownEnumCount - i)
          = min f (o.ownEnumCount - (i + 1)) + 1 := by omega
      rw [h1, List.range'_succ]
    · have h0 : o.ownEnumCount - i = 0 := by omega
      simp [hlt, h0]

/-- C9: starting the enumeration cursor at 0 and repeatedly feeding each
result back yields exactly the indices 1..N (N the own-binding count — the
current vector length on a vector object) in order, with no index
revisited, and the cursor answers `None` at index N; the 2^32 bound makes
the source's u32 cursor arithmetic exact. -/
theorem enumeration_exactly_n_then_none (o : Obj)
    (hN : o.ownEnumCount < 2 ^ 32) :
    (∀ fuel, enumTrace o fuel 0 = List.range' 1 (min fuel o.ownEnumCount)) ∧
    o.get_next_enumerant o.ownEnumCount = none ∧
    (∀ fuel, (enumTrace o fuel 0).Nodup) := by
  have htr : ∀ fuel, enumTrace o fuel 0 = List.range' 1 (min fuel o.ownEnumCount) := by
    intro fuel
    simpa using enumTrace_range o hN fuel 0 (Nat.zero_le _)
  refine ⟨htr, ?_, fun fuel => ?_⟩
  · simpa using gne_uniform o hN o.ownEnumCount le_rfl
  · rw [htr fuel]
    exact List.nodup_range' _ _

def c9ScriptObj : Obj :=
  .mk [(QName.dynamic_name "a", .dynamicP (Value.numberV 1)),
       (QName.dynamic_name "b", .dynamicP (Value.numberV 2))] none none .script

/-- C9 witness: on a concrete length-3 vector the cursor yields 1, 2, 3
then `None`; on a concrete script object with two own bindings it yields
1, 2 then `None`. -/
theorem enumeration_exactly_n_then_none_witness :
    (enumTrace c5Obj 4 0 = [1, 2, 3] ∧ c5Obj.get_next_enumerant 3 = none) ∧
    (enumTrace c9ScriptObj 5 0 = [1, 2] ∧ c9ScriptObj.get_next_enumerant 2 = none) :=
  ⟨⟨(enumeration_exactly_n_then_none c5Obj (by decide)).1 4,
    (enumeration_exactly_n_then_none c5Obj (by decide)).2.1⟩,
   ⟨(enumeration_exactly_n_then_none c9ScriptObj (by decide)).1 5,
    (enumeration_exactly_n_then_none c9ScriptObj (by decide)).2.1⟩⟩

theorem resolve_multiname_unfold (vals : List (QName × Property))
    (proto : Option Obj) (io : Option ClassObject) (k : ObjKind)
    (m : Multiname) :
    (Obj.mk vals proto io k).resolve_multiname m =
      (match (Obj.mk vals proto io k).resolve_multiname_hit m with
       | some qn => some qn
       | none =>
         if m.nsSet.contains Namespace.Any then
           (Obj.mk vals proto io k).resolve_multiname_any m
         else
           match proto with
           | some p => p.resolve_multiname m
           | none => none) := by
  rw [Obj.resolve_multiname.eq_def]

theorem protoChain_unfold (vals : List (QName × Property)) (proto : Option Obj)
    (io : Option ClassObject) (k : ObjKind) :
    (Obj.mk vals proto io k).protoChain
      = Obj.mk vals proto io k ::
          (match proto with
           | some q => q.protoChain
           | none => []) := by
  cases proto <;> rfl

theorem resolve_none_chain : ∀ (o : Obj) (m : Multiname) (nm : String),
    m.localName = some nm →
    m.nsSet.contains Namespace.Any = false →
    (o.resolve_multiname m = none ↔
      ∀ p ∈ o.protoChain, ∀ ns ∈ p.resolve_ns nm, m.nsSet.contains ns = false)
  | .mk vals proto io k, m, nm, hnm, hany => by
    cases hf : ((Obj.mk vals proto io k).resolve_ns nm).find?
        (fun ns => m.nsSet.contains ns) with
    | some ns =>
      have hhit : (Obj.mk vals proto io k).resolve_multiname_hit m
          = some ⟨ns, nm⟩ := by
        simp only [Obj.resolve_multiname_hit, hnm, hf]
        rfl
      have hres : (Obj.mk vals proto io k).resolve_multiname m
          = some ⟨ns, nm⟩ := by
        rw [resolve_multiname_unfold]
        simp [hhit]
      rw [hres, protoChain_unfold]
      constructor
      · intro h
        simp at h
      · intro hall
        have h1 : m.nsSet.contains ns = true := List.find?_some hf
        have h2 : m.nsSet.contains ns = false :=
          hall (Obj.mk vals proto io k) (List.mem_cons_self _ _) ns
            (List.mem_of_find?_eq_some hf)
        rw [h1] at h2
        exact absurd h2 (by simp)
    | none =>
      have hhead : ∀ ns ∈ (Obj.mk vals proto io k).resolve_ns nm,
          m.nsSet.contains ns = false := by
        intro ns2 hns2
        have h3 := List.find?_eq_none.mp hf ns2 hns2
        simp only [Bool.not_eq_true] at h3
        exact h3
      have hhit : (Obj.mk vals proto io k).resolve_multiname_hit m = none := by
        simp only [Obj.resolve_multiname_hit, hnm, hf]
        rfl
      cases proto with
      | some q =>
        have hstep : (Obj.mk vals (some q) io k).resolve_multiname m
            = q.resolve_multiname m := by
          rw [resolve_multiname_unfold]
          simp only [hhit]
          rw [hany]
          simp
        have ih := resolve_none_chain q m nm hnm hany
        rw [hstep, protoChain_unfold]
        simp only [List.forall_mem_cons]
        rw [ih]
        constructor
        · intro h
          exact ⟨hhead, h⟩
        · intro h
          exact h.2
      | none =>
        have hstep : (Obj.mk vals none io k).resolve_multiname m = none := by
          rw [resolve_multiname_unfold]
          simp only [hhit]
          rw [hany]
          simp
        rw [hstep, protoChain_unfold]
        simp only [List.forall_mem_cons]
        constructor
        · intro _
          exact ⟨hhead, by simp⟩
        · intro _
          trivial

/-- C2 (amended): for a multiname with a local name, `resolve_multiname`
returns the qualified name pairing the first own-or-trait candidate
namespace lying in the multiname's namespace set; failing that, if the
set contains the wildcard `Any`, it returns the first candidate — or
`None` when the object has no candidate, without consulting the
prototype; only for namespace sets without `Any` does it recurse into the
prototype, and there it returns `None` exactly when no link of the
prototype chain has a candidate namespace inside the set. -/
theorem resolve_multiname_policy (o : Obj) (m : Multiname) (nm : String)
    (hnm : m.localName = some nm) :
    (∀ ns, (o.resolve_ns nm).find? (fun x => m.nsSet.contains x) = some ns →
      o.resolve_multiname m = some ⟨ns, nm⟩) ∧
    ((o.resolve_ns nm).find? (fun x => m.nsSet.contains x) = none →
      m.nsSet.contains Namespace.Any = true →
      o.resolve_multiname m = (o.resolve_ns nm).head?.map (fun ns => ⟨ns, nm⟩)) ∧
    (m.nsSet.contains Namespace.Any = false →
      (o.resolve_multiname m = none ↔
        ∀ p ∈ o.protoChain, ∀ ns ∈ p.resolve_ns nm,
          m.nsSet.contains ns = false)) := by
  refine ⟨fun ns hf => ?_, fun hf hany => ?_,
    fun hany => resolve_none_chain o m nm hnm hany⟩
  · cases o with
    | mk vals proto io k =>
      have hhit : (Obj.mk vals proto io k).resolve_multiname_hit m
          = some ⟨ns, nm⟩ := by
        simp only [Obj.resolve_multiname_hit, hnm, hf]
        rfl
      rw [resolve_multiname_unfold]
      simp [hhit]
  · cases o with
    | mk vals proto io k =>
      have hhit : (Obj.mk vals proto io k).resolve_multiname_hit m = none := by
        simp only [Obj.resolve_multiname_hit, hnm, hf]
        rfl
      rw [resolve_multiname_unfold]
      simp only [hhit]
      rw [hany]
      simp [Obj.resolve_multiname_any, hnm]

def c2ProtoObj : Obj :=
  .mk [(QName.dynamic_name "x", .dynamicP (Value.numberV 3))] none none .script

def c2Obj : Obj := .mk [] (some c2ProtoObj) none .script

def c2MnAny : Multiname := ⟨some "x", [Namespace.Any]⟩

/-- C2 counterexample: with the wildcard `Any` in the namespace set and no
own candidate, `resolve_multiname` answers `None` even though the
immediate prototype (a link of the chain) resolves the same multiname —
refuting "it returns None only when no resolution is possible anywhere in
the prototype chain". -/
theorem resolve_multiname_policy_cex :
    c2Obj.resolve_multiname c2MnAny = none ∧
    c2Obj.protoChain = [c2Obj, c2ProtoObj] ∧
    c2ProtoObj.resolve_multiname c2MnAny = some (QName.dynamic_name "x") :=
  ⟨rfl, rfl, rfl⟩

def c2WObj : Obj :=
  .mk [(QName.dynamic_name "y", .dynamicP (Value.numberV 1))] none none .script

def c2WMn : Multiname := ⟨some "y", [Namespace.publicNs]⟩

/-- C2 witness: the amended theorem applied to a concrete object resolving
`y` in the public namespace (first matching candidate wins), and to a
concrete object with no own candidate under `Any` (answering `None`
without consulting the prototype that could resolve it). -/
theorem resolve_multiname_policy_witness :
    c2WObj.resolve_multiname c2WMn = some (QName.dynamic_name "y") ∧
    c2Obj.resolve_multiname c2MnAny = none :=
  ⟨(resolve_multiname_policy c2WObj c2WMn "y" rfl).1 Namespace.publicNs rfl,
   (resolve_multiname_policy c2Obj c2MnAny "x" rfl).2.1 rfl rfl⟩

end Avm2
